import Mathlib

/-!
Shallow embedding of `src/app.py` (a Flask + SQLAlchemy project-tracking app).

Modelling conventions:
* The SQLite store is a `DB`: a list of `User` rows, a list of `Project` rows,
  and counters handing out the next autoincrement primary keys.
* HTML form data is a record of `Option String` fields: `none` means the key is
  absent from `request.form`, `some v` means it is present with value `v`
  (`request.form.get k d` becomes `Option.getD`/a fallback match).
* `datetime.utcnow` is modelled by a `Nat` timestamp passed into each handler.
* Python `str.strip()` is `pyStrip` (drop leading and trailing whitespace
  characters) and `str.lower()` is `pyLower` (per-character ASCII lowering,
  the fragment relevant to the e-mail addresses handled here).
* `werkzeug.security.generate_password_hash` / `check_password_hash` are
  modelled as an ideal salted hash: `check_password_hash (generate_password_hash p) q`
  holds exactly when `q = p`.  The model keeps the hashed password inside the
  `PasswordHash` wrapper only to state that property; nothing reads it back.
* Route handlers return the updated `DB` paired with a `RouteResult`
  describing the HTTP outcome (redirect-with-flash categories, 403, 404, or
  the 500 produced by an uncaught exception).
-/

namespace App

/-- Python `str.strip()`: drop leading and trailing whitespace. -/
def pyStrip (s : String) : String :=
  ⟨((s.data.dropWhile Char.isWhitespace).reverse.dropWhile Char.isWhitespace).reverse⟩

/-- Python `str.lower()` on the ASCII range: lower each character. -/
def pyLower (s : String) : String := ⟨s.data.map Char.toLower⟩

/-- The e-mail normalization both `register` and `login` apply:
`request.form.get("email", "").strip().lower()`. -/
def normalizeEmail (s : String) : String := pyLower (pyStrip s)

/-- Ideal model of a werkzeug salted password hash: verification succeeds
exactly for the password that was hashed. -/
structure PasswordHash where
  hashed : String
deriving Repr, DecidableEq

/-- Model of `werkzeug.security.generate_password_hash`. -/
def generate_password_hash (password : String) : PasswordHash := ⟨password⟩

/-- Model of `werkzeug.security.check_password_hash`. -/
def check_password_hash (h : PasswordHash) (password : String) : Bool :=
  h.hashed == password

/-- Row of the `user` table (`class User`, src/app.py lines 30-40). -/
structure User where
  id : Nat
  full_name : String
  email : String
  password_hash : PasswordHash
deriving Repr, DecidableEq

/-- `User.check_password` (src/app.py line 39). -/
def User.check_password (u : User) (password : String) : Bool :=
  check_password_hash u.password_hash password

/-- Row of the `project` table (`class Project`, src/app.py lines 43-56).
The four free-text columns are declared `nullable=True` in the schema, hence
`Option String` here; `title` and `owner_id` are `nullable=False`. -/
structure Project where
  id : Nat
  owner_id : Nat
  title : String
  description : Option String
  tech_stack : Option String
  feature_checklist : Option String
  deployment_url : Option String
  status : Option String
  is_public : Bool
  created_at : Nat
  updated_at : Nat
deriving Repr, DecidableEq

/-- The SQLite database plus autoincrement counters. Row order in each list is
insertion order, which is the order unordered queries traverse. -/
structure DB where
  users : List User
  projects : List Project
  next_user_id : Nat
  next_project_id : Nat
deriving Repr, DecidableEq

/-- The empty store created by `db.create_all()`. -/
def DB.empty : DB := ⟨[], [], 1, 1⟩

/-- Outcome of a request, abstracting the redirect/flash/abort at the end of
each handler. -/
inductive RouteResult where
  /-- Redirect after a successful mutation. -/
  | ok : RouteResult
  /-- Redirect with a "required field" flash (`ValidationError`). -/
  | validationError : RouteResult
  /-- Redirect with the duplicate-email warning (`ConflictError`). -/
  | conflictError : RouteResult
  /-- `abort(403)`. -/
  | forbidden : RouteResult
  /-- `get_or_404` failed: HTTP 404. -/
  | notFound : RouteResult
  /-- An uncaught exception in the handler: HTTP 500. -/
  | serverError : RouteResult
deriving Repr, DecidableEq

/-- The POST fields of the project create/edit forms: `none` when the key is
absent from `request.form`. The `is_public` checkbox arrives as the raw string
`"on"` when checked and is absent otherwise. -/
structure ProjectForm where
  title : Option String := none
  description : Option String := none
  tech_stack : Option String := none
  feature_checklist : Option String := none
  deployment_url : Option String := none
  status : Option String := none
  is_public : Option String := none
deriving Repr, DecidableEq

/-- `register` POST handler (src/app.py lines 87-110). -/
def register (db : DB) (full_name email password : String) : DB × RouteResult :=
  let full_name := pyStrip full_name
  let email := normalizeEmail email
  if email = "" || password = "" then
    (db, .validationError)
  else if (db.users.find? (fun u => u.email == email)).isSome then
    (db, .conflictError)
  else
    let user : User :=
      { id := db.next_user_id
        full_name := full_name
        email := email
        password_hash := generate_password_hash password }
    ({ db with users := db.users ++ [user], next_user_id := db.next_user_id + 1 },
     .ok)

/-- `login` POST handler (src/app.py lines 113-125): `some uid` when
`login_user` is reached, `none` on the invalid-credentials redirect. -/
def login (db : DB) (email password : String) : Option Nat :=
  let email := normalizeEmail email
  match db.users.find? (fun u => u.email == email) with
  | some user => if user.check_password password then some user.id else none
  | none => none

/-- `profile` POST handler (src/app.py lines 135-143): overwrite the current
user's display name. -/
def profile (db : DB) (uid : Nat) (full_name : String) : DB :=
  { db with
    users := db.users.map fun u =>
      if u.id == uid then { u with full_name := pyStrip full_name } else u }

/-- Stable insertion into a list sorted by `created_at` descending. -/
def insertByCreatedDesc (p : Project) : List Project → List Project
  | [] => [p]
  | q :: l =>
    if q.created_at < p.created_at then p :: q :: l
    else q :: insertByCreatedDesc p l

/-- Stable sort by `created_at` descending, modelling
`order_by(Project.created_at.desc())`. -/
def sortByCreatedDesc : List Project → List Project
  | [] => []
  | p :: l => insertByCreatedDesc p (sortByCreatedDesc l)

/-- `projects` list route (src/app.py lines 155-159): the current user's
projects, newest `created_at` first. -/
def projects (db : DB) (uid : Nat) : List Project :=
  sortByCreatedDesc (db.projects.filter fun p => p.owner_id == uid)

/-- `Project.query.get(project_id)` as used by `get_or_404`. -/
def get_project (db : DB) (project_id : Nat) : Option Project :=
  db.projects.find? fun p => p.id == project_id

/-- `create_project` POST handler (src/app.py lines 162-190). Every text
field is read with default `""` and stripped, except `status`, which is read
with default `"Active"` and stored verbatim; `is_public` is the checkbox
test `request.form.get("is_public") == "on"`. -/
def create_project (db : DB) (uid : Nat) (form : ProjectForm) (now : Nat) :
    DB × RouteResult :=
  let title := pyStrip (form.title.getD "")
  let description := pyStrip (form.description.getD "")
  let tech_stack := pyStrip (form.tech_stack.getD "")
  let feature_checklist := pyStrip (form.feature_checklist.getD "")
  let deployment_url := pyStrip (form.deployment_url.getD "")
  let status := form.status.getD "Active"
  let is_public := form.is_public == some "on"
  if title = "" then
    (db, .validationError)
  else
    let proj : Project :=
      { id := db.next_project_id
        owner_id := uid
        title := title
        description := some description
        tech_stack := some tech_stack
        feature_checklist := some feature_checklist
        deployment_url := some deployment_url
        status := some status
        is_public := is_public
        created_at := now
        updated_at := now }
    ({ db with
        projects := db.projects ++ [proj]
        next_project_id := db.next_project_id + 1 },
     .ok)

/-- `edit_project` POST handler (src/app.py lines 193-213).
`request.form.get(k, proj.k).strip()` falls back to the stored column when the
form key is absent; when that stored column is NULL the `.strip()` call raises
`AttributeError` (`None` has no `strip`), the transaction is never committed,
and the request dies with HTTP 500 — hence the `serverError` branch.
`status` has no `.strip()`, and `is_public` is recomputed from the checkbox.
`onupdate=datetime.utcnow` refreshes `updated_at` at commit. -/
def edit_project (db : DB) (uid : Nat) (project_id : Nat) (form : ProjectForm)
    (now : Nat) : DB × RouteResult :=
  match db.projects.find? (fun p => p.id == project_id) with
  | none => (db, .notFound)
  | some proj =>
    if proj.owner_id ≠ uid then
      (db, .forbidden)
    else
      match form.description.or proj.description,
            form.tech_stack.or proj.tech_stack,
            form.feature_checklist.or proj.feature_checklist,
            form.deployment_url.or proj.deployment_url with
      | some d, some ts, some fc, some du =>
        let proj' : Project :=
          { proj with
            title := pyStrip (form.title.getD proj.title)
            description := some (pyStrip d)
            tech_stack := some (pyStrip ts)
            feature_checklist := some (pyStrip fc)
            deployment_url := some (pyStrip du)
            status := form.status.or proj.status
            is_public := form.is_public == some "on"
            updated_at := now }
        ({ db with
            projects := db.projects.map fun p =>
              if p.id == project_id then proj' else p },
         .ok)
      | _, _, _, _ => (db, .serverError)

/-- `delete_project` POST handler (src/app.py lines 216-225). -/
def delete_project (db : DB) (uid : Nat) (project_id : Nat) : DB × RouteResult :=
  match db.projects.find? (fun p => p.id == project_id) with
  | none => (db, .notFound)
  | some proj =>
    if proj.owner_id ≠ uid then
      (db, .forbidden)
    else
      ({ db with projects := db.projects.filter fun p => ¬ (p.id == project_id) },
       .ok)

/-! ### Derived predicates -/

/-- The shape `register` keeps the user table in: every stored e-mail is
already lowercase (registration stores only normalized e-mails) and e-mails
are pairwise distinct (the `unique=True` column constraint). -/
def EmailInv (db : DB) : Prop :=
  (∀ u ∈ db.users, pyLower u.email = u.email) ∧
  db.users.Pairwise fun a b => a.email ≠ b.email

/-- The spec's invariant: exactly one stored User per lowercase e-mail. -/
def OnePerLowerEmail (db : DB) : Prop :=
  db.users.Pairwise fun a b => pyLower a.email ≠ pyLower b.email

/-- The shape every project row persisted by this application has: the four
optional text columns are non-NULL, and all text fields are already
stripped. -/
def Project.Normalized (p : Project) : Prop :=
  pyStrip p.title = p.title ∧
  (p.description.isSome = true ∧ p.description.map pyStrip = p.description) ∧
  (p.tech_stack.isSome = true ∧ p.tech_stack.map pyStrip = p.tech_stack) ∧
  (p.feature_checklist.isSome = true ∧
    p.feature_checklist.map pyStrip = p.feature_checklist) ∧
  (p.deployment_url.isSome = true ∧ p.deployment_url.map pyStrip = p.deployment_url)

/-! ### Concrete fixtures used by witnesses and counterexamples -/

/-- A registered user, as `register` would store her. -/
def exUserAlice : User :=
  { id := 1, full_name := "Alice"
    email := "alice@example.com"
    password_hash := generate_password_hash "pw123" }

/-- A second registered user. -/
def exUserBob : User :=
  { id := 2, full_name := "Bob"
    email := "bob@example.com"
    password_hash := generate_password_hash "hunter2" }

/-- A project owned by Alice, with the column values `create_project` produces. -/
def exProjBlog : Project :=
  { id := 1, owner_id := 1, title := "Blog"
    description := some "", tech_stack := some "Go,React"
    feature_checklist := some "", deployment_url := some ""
    status := some "Active", is_public := false
    created_at := 5, updated_at := 5 }

/-- A store with Alice, Bob and Alice's project. -/
def exDb : DB :=
  { users := [exUserAlice, exUserBob]
    projects := [exProjBlog]
    next_user_id := 3, next_project_id := 2 }

/-- A create form whose `status` carries surrounding whitespace. -/
def cexStatusForm : ProjectForm :=
  { title := some "Blog", status := some " Active " }

/-- A project stored with the public flag set, as `create_project` persists it
when the checkbox was checked. -/
def exProjPub : Project :=
  { id := 1, owner_id := 1, title := "Site"
    description := some "d", tech_stack := some ""
    feature_checklist := some "", deployment_url := some ""
    status := some "Active", is_public := true
    created_at := 3, updated_at := 3 }

/-- A store holding Alice and her public project. -/
def exDbPub : DB :=
  { users := [exUserAlice]
    projects := [exProjPub]
    next_user_id := 2, next_project_id := 2 }

/-! ### C1: non-owner edit/delete -/

/-- C1: for every stored project and every authenticated user who is not its
owner, the POST edit and delete handlers both answer 403 and leave the whole
store — in particular the target row — unchanged. -/
theorem nonowner_edit_delete_forbidden (db : DB) (uid project_id : Nat)
    (form : ProjectForm) (now : Nat) (p : Project)
    (hfind : db.projects.find? (fun q => q.id == project_id) = some p)
    (howner : p.owner_id ≠ uid) :
    edit_project db uid project_id form now = (db, .forbidden) ∧
    delete_project db uid project_id = (db, .forbidden) := by
  unfold edit_project delete_project
  rw [hfind]
  simp [howner]

/-- Witness for C1: Bob (id 2) cannot edit or delete Alice's project. -/
theorem nonowner_edit_delete_forbidden_witness :
    edit_project exDb 2 1 {} 9 = (exDb, .forbidden) ∧
    delete_project exDb 2 1 = (exDb, .forbidden) :=
  nonowner_edit_delete_forbidden exDb 2 1 {} 9 exProjBlog (by decide) (by decide)

/-! ### C2: the list route only shows the requester's projects -/

/-- Membership is invariant under `insertByCreatedDesc`. -/
theorem mem_insertByCreatedDesc {p q : Project} {l : List Project} :
    q ∈ insertByCreatedDesc p l ↔ q = p ∨ q ∈ l := by
  induction l with
  | nil => simp [insertByCreatedDesc]
  | cons a l ih =>
    by_cases h : a.created_at < p.created_at
    · simp [insertByCreatedDesc, h]
    · simp [insertByCreatedDesc, h, ih]
      tauto

/-- Membership is invariant under `sortByCreatedDesc`. -/
theorem mem_sortByCreatedDesc {q : Project} {l : List Project} :
    q ∈ sortByCreatedDesc l ↔ q ∈ l := by
  induction l with
  | nil => simp [sortByCreatedDesc]
  | cons a l ih => simp [sortByCreatedDesc, mem_insertByCreatedDesc, ih]

/-- C2: every project returned by the `/projects` list route for user `uid`
has `owner_id = uid`; projects of other owners never appear. -/
theorem projects_only_owner (db : DB) (uid : Nat) (p : Project)
    (hmem : p ∈ projects db uid) : p.owner_id = uid := by
  unfold projects at hmem
  rw [mem_sortByCreatedDesc] at hmem
  simpa using (List.mem_filter.mp hmem).2

/-- Witness for C2: Alice's project is listed for Alice, with her owner id. -/
theorem projects_only_owner_witness :
    exProjBlog ∈ projects exDb 1 ∧ exProjBlog.owner_id = 1 :=
  ⟨by decide, projects_only_owner exDb 1 exProjBlog (by decide)⟩

/-! ### C3: authentication -/

/-- Python ASCII lowering is idempotent, character by character. -/
theorem char_toLower_idem (c : Char) : c.toLower.toLower = c.toLower := by
  unfold Char.toLower
  by_cases h : c.toNat ≥ 65 ∧ c.toNat ≤ 90
  · have hv : Nat.isValidChar (c.toNat + 32) := Or.inl (by omega)
    have ht : (Char.ofNat (c.toNat + 32)).toNat = c.toNat + 32 := by
      rw [Char.ofNat, dif_pos hv]; rfl
    rw [if_pos h, if_neg (by omega :
      ¬((Char.ofNat (c.toNat + 32)).toNat ≥ 65 ∧ (Char.ofNat (c.toNat + 32)).toNat ≤ 90))]
  · rw [if_neg h, if_neg h]

/-- `pyLower` is idempotent. -/
theorem pyLower_idem (s : String) : pyLower (pyLower s) = pyLower s := by
  unfold pyLower
  apply congrArg String.mk
  induction s.data with
  | nil => rfl
  | cons a l ih => simp [char_toLower_idem, ih]

/-- With pairwise-distinct e-mails, `find?` on an e-mail returns exactly the
member that carries it. -/
theorem find?_email_unique {l : List User} {e : String} {u : User}
    (huniq : l.Pairwise fun a b => a.email ≠ b.email)
    (hmem : u ∈ l) (heq : u.email = e) :
    l.find? (fun v => v.email == e) = some u := by
  induction l with
  | nil => cases hmem
  | cons a l ih =>
    rw [List.pairwise_cons] at huniq
    rcases List.mem_cons.mp hmem with rfl | hmem'
    · exact List.find?_cons_of_pos _ (by simpa using heq)
    · have hane : a.email ≠ e := heq ▸ huniq.1 u hmem'
      rw [List.find?_cons_of_neg _ (by simpa using hane)]
      exact ih huniq.2 hmem'

/-- C3 counterexample: the login route strips the submitted e-mail before
lowercasing it.  With the input `" Alice@Example.com"`, authentication
succeeds although no stored user's e-mail equals the merely lowercased
input `" alice@example.com"`, so the claimed iff fails as stated. -/
theorem login_lowercase_only_cex :
    login exDb " Alice@Example.com" "pw123" = some 1 ∧
    pyLower " Alice@Example.com" = " alice@example.com" ∧
    exDb.users.map User.email = ["alice@example.com", "bob@example.com"] ∧
    (exDb.users.any fun u => u.email == pyLower " Alice@Example.com") = false := by
  decide

/-- C3 amended: under the `UNIQUE` e-mail constraint, `login` succeeds iff a
stored user's e-mail equals the trimmed-and-lowercased input and its stored
hash verifies against the supplied password; moreover whenever every stored
hash was derived from a password other than the supplied one (in particular
the empty string against any nonempty password), login fails. -/
theorem login_iff (db : DB) (email password : String)
    (huniq : db.users.Pairwise fun a b => a.email ≠ b.email) :
    ((login db email password).isSome = true ↔
      ∃ u, u ∈ db.users ∧ u.email = normalizeEmail email ∧
        u.check_password password = true) ∧
    ((∀ u ∈ db.users, ∃ p0,
        u.password_hash = generate_password_hash p0 ∧ p0 ≠ password) →
      login db email password = none) := by
  have hlogin : login db email password =
      (match db.users.find? (fun v => v.email == normalizeEmail email) with
        | some u => if u.check_password password = true then some u.id else none
        | none => none) := rfl
  constructor
  · rw [hlogin]
    cases hfind : db.users.find? (fun v => v.email == normalizeEmail email) with
    | none =>
      simp only [Option.isSome_none, Bool.false_eq_true, false_iff]
      rintro ⟨u, hmem, he, hc⟩
      have := List.find?_eq_none.mp hfind u hmem
      simp [he] at this
    | some u =>
      have hmem := List.mem_of_find?_eq_some hfind
      have he : u.email = normalizeEmail email := by
        simpa using List.find?_some hfind
      by_cases hc : u.check_password password = true
      · simp only [hc, if_true, Option.isSome_some, true_iff]
        exact ⟨u, hmem, he, hc⟩
      · simp only [if_neg hc, Option.isSome_none, Bool.false_eq_true, false_iff]
        rintro ⟨v, hvmem, hve, hvc⟩
        have hv : db.users.find? (fun w => w.email == normalizeEmail email) = some v :=
          find?_email_unique huniq hvmem hve
        rw [hfind] at hv
        cases hv
        exact hc hvc
  · intro hall
    rw [hlogin]
    cases hfind : db.users.find? (fun v => v.email == normalizeEmail email) with
    | none => rfl
    | some u =>
      obtain ⟨p0, hh, hne⟩ := hall u (List.mem_of_find?_eq_some hfind)
      have hc : u.check_password password = false := by
        unfold User.check_password check_password_hash
        rw [hh]
        simpa [generate_password_hash] using hne
      simp [hc]

/-- Witness for C3's amended theorem, at Alice's credentials with an
unnormalized e-mail spelling. -/
theorem login_iff_witness :
    (exDb.users.Pairwise fun a b => a.email ≠ b.email) ∧
    (((login exDb "ALICE@example.com " "pw123").isSome = true ↔
      ∃ u, u ∈ exDb.users ∧ u.email = normalizeEmail "ALICE@example.com " ∧
        u.check_password "pw123" = true) ∧
    ((∀ u ∈ exDb.users, ∃ p0,
        u.password_hash = generate_password_hash p0 ∧ p0 ≠ "pw123") →
      login exDb "ALICE@example.com " "pw123" = none)) :=
  ⟨by decide, login_iff exDb "ALICE@example.com " "pw123" (by decide)⟩

/-! ### C5: blank title never persists -/

/-- C5: when the submitted title strips to the empty string (absent, empty, or
whitespace-only), `create_project` answers with the validation flash and the
store is unchanged — no row is inserted. -/
theorem create_blank_title_no_insert (db : DB) (uid : Nat) (form : ProjectForm)
    (now : Nat) (htitle : pyStrip (form.title.getD "") = "") :
    create_project db uid form now = (db, .validationError) := by
  unfold create_project
  simp [htitle]

/-- Witness for C5: a whitespace-only title is rejected without insertion. -/
theorem create_blank_title_no_insert_witness :
    pyStrip (some "   " |>.getD "") = "" ∧
    create_project exDb 1 { title := some "   " } 9 = (exDb, .validationError) :=
  ⟨by decide,
   create_blank_title_no_insert exDb 1 { title := some "   " } 9 (by decide)⟩

/-! ### C4: duplicate registration and the unique-email invariant -/

/-- `register` preserves the e-mail invariant. -/
theorem emailInv_register (db : DB) (fn e p : String) (h : EmailInv db) :
    EmailInv (register db fn e p).1 := by
  unfold register
  dsimp only
  split
  · exact h
  · split
    · exact h
    · next hfind =>
      obtain ⟨hlow, hpair⟩ := h
      have hnone : db.users.find? (fun u => u.email == normalizeEmail e) = none := by
        cases hcase : db.users.find? (fun u => u.email == normalizeEmail e) with
        | none => rfl
        | some v => exact absurd (by simp [hcase]) hfind
      constructor
      · intro u hu
        rcases List.mem_append.mp hu with hu | hu
        · exact hlow u hu
        · rcases List.mem_singleton.mp hu with rfl
          exact pyLower_idem (pyStrip e)
      · rw [List.pairwise_append]
        refine ⟨hpair, by simp, ?_⟩
        intro a ha b hb
        rcases List.mem_singleton.mp hb with rfl
        have hane := List.find?_eq_none.mp hnone a ha
        simpa using hane

/-- `profile` rewrites only display names, so the e-mail invariant is kept. -/
theorem emailInv_profile (db : DB) (uid : Nat) (fn : String) (h : EmailInv db) :
    EmailInv (profile db uid fn) := by
  obtain ⟨hlow, hpair⟩ := h
  have hemail : ∀ v : User,
      ((fun u => if u.id == uid then { u with full_name := pyStrip fn } else u) v).email
        = v.email := by
    intro v
    by_cases hv : (v.id == uid) = true <;> simp [hv]
  constructor
  · intro u hu
    rcases List.mem_map.mp hu with ⟨v, hv, rfl⟩
    rw [hemail v]
    exact hlow v hv
  · show List.Pairwise _ (db.users.map _)
    rw [List.pairwise_map]
    exact hpair.imp fun hab => by
      rw [hemail, hemail]; exact hab

/-- The e-mail invariant yields one stored user per lowercase e-mail. -/
theorem emailInv_onePerLower (db : DB) (h : EmailInv db) : OnePerLowerEmail db := by
  obtain ⟨hlow, hpair⟩ := h
  exact hpair.imp_of_mem fun ha hb hne => by
    rw [hlow _ ha, hlow _ hb]; exact hne

/-- `create_project` never touches the user table. -/
theorem create_project_users_eq (db : DB) (uid : Nat) (form : ProjectForm)
    (now : Nat) : (create_project db uid form now).1.users = db.users := by
  unfold create_project
  dsimp only
  split <;> rfl

/-- `edit_project` never touches the user table. -/
theorem edit_project_users_eq (db : DB) (uid pid : Nat) (form : ProjectForm)
    (now : Nat) : (edit_project db uid pid form now).1.users = db.users := by
  unfold edit_project
  cases db.projects.find? (fun p => p.id == pid) with
  | none => rfl
  | some proj =>
    dsimp only
    split
    · rfl
    · split <;> rfl

/-- `delete_project` never touches the user table. -/
theorem delete_project_users_eq (db : DB) (uid pid : Nat) :
    (delete_project db uid pid).1.users = db.users := by
  unfold delete_project
  cases db.projects.find? (fun p => p.id == pid) with
  | none => rfl
  | some proj =>
    dsimp only
    split <;> rfl

/-- C4: registering a fresh e-mail and then registering any spelling with the
same normalized form leaves exactly one stored user with that e-mail; the
second call answers with the duplicate warning and changes nothing.
Furthermore the one-user-per-lowercase-e-mail invariant is preserved by every
operation: `register` and `profile` keep `EmailInv` (which implies it), and
the project routes never touch the user table (`login` performs no writes at
all: its result type carries no store). -/
theorem register_duplicate_email (db : DB) (fn1 fn2 e1 e2 p1 p2 : String)
    (hnorm : normalizeEmail e1 = normalizeEmail e2)
    (he : normalizeEmail e1 ≠ "") (hp1 : p1 ≠ "") (hp2 : p2 ≠ "")
    (hfresh : ∀ u ∈ db.users, u.email ≠ normalizeEmail e1) :
    (register db fn1 e1 p1).2 = .ok ∧
    (register (register db fn1 e1 p1).1 fn2 e2 p2).2 = .conflictError ∧
    (register (register db fn1 e1 p1).1 fn2 e2 p2).1 = (register db fn1 e1 p1).1 ∧
    ((register db fn1 e1 p1).1.users.countP
      fun u => u.email == normalizeEmail e1) = 1 ∧
    (∀ (db2 : DB) (fn e p : String) (uid pid now : Nat) (form : ProjectForm),
      EmailInv db2 →
        EmailInv (register db2 fn e p).1 ∧
        EmailInv (profile db2 uid fn) ∧
        OnePerLowerEmail db2 ∧
        (create_project db2 uid form now).1.users = db2.users ∧
        (edit_project db2 uid pid form now).1.users = db2.users ∧
        (delete_project db2 uid pid).1.users = db2.users) := by
  have hfind1 : db.users.find? (fun u => u.email == normalizeEmail e1) = none :=
    List.find?_eq_none.mpr fun u hu => by simpa using hfresh u hu
  have hr1 : register db fn1 e1 p1 =
      ({ db with
          users := db.users ++
            [{ id := db.next_user_id, full_name := pyStrip fn1
               email := normalizeEmail e1
               password_hash := generate_password_hash p1 }]
          next_user_id := db.next_user_id + 1 }, .ok) := by
    unfold register
    simp [he, hp1, hfind1]
  have he2 : normalizeEmail e2 ≠ "" := hnorm ▸ he
  have hconfl : ∀ db1 : DB,
      ((db1.users.find? (fun u => u.email == normalizeEmail e2)).isSome = true) →
      register db1 fn2 e2 p2 = (db1, .conflictError) := by
    intro db1 hin1
    unfold register
    simp [he2, hp2, hin1]
  have hin : (((register db fn1 e1 p1).1.users.find?
      (fun u => u.email == normalizeEmail e2)).isSome = true) := by
    rw [hr1]
    dsimp only
    rw [← hnorm]
    simp [List.find?_append, hfind1]
  refine ⟨by rw [hr1], ?_, ?_, ?_, ?_⟩
  · rw [hconfl _ hin]
  · rw [hconfl _ hin]
  · rw [hr1]
    dsimp only
    rw [List.countP_append]
    have h0 : db.users.countP (fun u => u.email == normalizeEmail e1) = 0 :=
      List.countP_eq_zero.mpr fun u hu => by simpa using hfresh u hu
    rw [h0]
    simp [List.countP_cons]
  · intro db2 fn e p uid pid now form hI
    exact ⟨emailInv_register db2 fn e p hI, emailInv_profile db2 uid fn hI,
      emailInv_onePerLower db2 hI, create_project_users_eq db2 uid form now,
      edit_project_users_eq db2 uid pid form now,
      delete_project_users_eq db2 uid pid⟩

/-- Witness for C4: registering `Carol@X.com` on the empty store, then
`" carol@x.com"`, conflicts and inserts nothing the second time. -/
theorem register_duplicate_email_witness :
    normalizeEmail "Carol@X.com" = normalizeEmail " carol@x.com" ∧
    normalizeEmail "Carol@X.com" ≠ "" ∧
    (∀ u ∈ DB.empty.users, u.email ≠ normalizeEmail "Carol@X.com") ∧
    ((register DB.empty "Carol" "Carol@X.com" "pwA").2 = .ok ∧
     (register (register DB.empty "Carol" "Carol@X.com" "pwA").1
        "Caz" " carol@x.com" "pwB").2 = .conflictError ∧
     (register (register DB.empty "Carol" "Carol@X.com" "pwA").1
        "Caz" " carol@x.com" "pwB").1 =
       (register DB.empty "Carol" "Carol@X.com" "pwA").1 ∧
     ((register DB.empty "Carol" "Carol@X.com" "pwA").1.users.countP
        fun u => u.email == normalizeEmail "Carol@X.com") = 1) := by
  have h := register_duplicate_email DB.empty "Carol" "Caz" "Carol@X.com"
    " carol@x.com" "pwA" "pwB" (by decide) (by decide) (by decide) (by decide)
    (by decide)
  exact ⟨by decide, by decide, by decide, h.1, h.2.1, h.2.2.1, h.2.2.2.1⟩

/-! ### Shared lemmas about stripping and row lookup -/

/-- `dropWhile` is idempotent. -/
theorem dropWhile_idem {α : Type} (p : α → Bool) (l : List α) :
    (l.dropWhile p).dropWhile p = l.dropWhile p := by
  induction l with
  | nil => rfl
  | cons a l ih =>
    by_cases h : p a
    · simp [List.dropWhile_cons, h, ih]
    · simp [List.dropWhile_cons, h]

/-- A prefix of a list `dropWhile` leaves unchanged is itself unchanged. -/
theorem dropWhile_eq_self_of_prefix {α : Type} (p : α → Bool) {l t : List α}
    (hl : l.dropWhile p = l) (ht : t <+: l) : t.dropWhile p = t := by
  obtain ⟨r, rfl⟩ := ht
  cases t with
  | nil => rfl
  | cons a t' =>
    have ha : p a = false := by
      by_contra hcontra
      have ha' : p a = true := by simpa using hcontra
      rw [List.cons_append, List.dropWhile_cons, if_pos ha'] at hl
      have hle := ((List.dropWhile_suffix (l := t' ++ r) p).sublist).length_le
      have hlen := congrArg List.length hl
      simp only [List.length_cons, List.length_append] at hlen hle
      omega
    rw [List.dropWhile_cons, if_neg (by simp [ha])]

/-- Python stripping is idempotent. -/
theorem pyStrip_idem (s : String) : pyStrip (pyStrip s) = pyStrip s := by
  unfold pyStrip
  apply congrArg String.mk
  show (((((((s.data.dropWhile Char.isWhitespace).reverse.dropWhile
      Char.isWhitespace).reverse).dropWhile Char.isWhitespace).reverse).dropWhile
      Char.isWhitespace).reverse) =
    ((s.data.dropWhile Char.isWhitespace).reverse.dropWhile Char.isWhitespace).reverse
  generalize s.data = l
  have hm := dropWhile_idem Char.isWhitespace l
  have h1 : ((l.dropWhile Char.isWhitespace).reverse.dropWhile Char.isWhitespace) <:+
      (l.dropWhile Char.isWhitespace).reverse := List.dropWhile_suffix _
  have h2 := List.reverse_prefix.mpr h1
  rw [List.reverse_reverse] at h2
  have step1 := dropWhile_eq_self_of_prefix _ hm h2
  rw [step1]
  have step2 : ((((l.dropWhile Char.isWhitespace).reverse.dropWhile
      Char.isWhitespace).reverse).reverse).dropWhile Char.isWhitespace =
      (((l.dropWhile Char.isWhitespace).reverse.dropWhile
      Char.isWhitespace).reverse).reverse := by
    rw [List.reverse_reverse]
    exact dropWhile_idem _ _
  rw [step2, List.reverse_reverse]

/-- What a successful `create_project` inserts, observed through `get`. -/
theorem create_project_spec (db : DB) (uid : Nat) (form : ProjectForm) (now : Nat)
    (htitle : pyStrip (form.title.getD "") ≠ "")
    (hfresh : ∀ p ∈ db.projects, p.id ≠ db.next_project_id) :
    (create_project db uid form now).2 = .ok ∧
    (create_project db uid form now).1.projects = db.projects ++
      [{ id := db.next_project_id, owner_id := uid
         title := pyStrip (form.title.getD "")
         description := some (pyStrip (form.description.getD ""))
         tech_stack := some (pyStrip (form.tech_stack.getD ""))
         feature_checklist := some (pyStrip (form.feature_checklist.getD ""))
         deployment_url := some (pyStrip (form.deployment_url.getD ""))
         status := some (form.status.getD "Active")
         is_public := form.is_public == some "on"
         created_at := now, updated_at := now }] ∧
    get_project (create_project db uid form now).1 db.next_project_id =
      some { id := db.next_project_id, owner_id := uid
             title := pyStrip (form.title.getD "")
             description := some (pyStrip (form.description.getD ""))
             tech_stack := some (pyStrip (form.tech_stack.getD ""))
             feature_checklist := some (pyStrip (form.feature_checklist.getD ""))
             deployment_url := some (pyStrip (form.deployment_url.getD ""))
             status := some (form.status.getD "Active")
             is_public := form.is_public == some "on"
             created_at := now, updated_at := now } := by
  have hcp : create_project db uid form now =
      ({ db with
          projects := db.projects ++
            [{ id := db.next_project_id, owner_id := uid
               title := pyStrip (form.title.getD "")
               description := some (pyStrip (form.description.getD ""))
               tech_stack := some (pyStrip (form.tech_stack.getD ""))
               feature_checklist := some (pyStrip (form.feature_checklist.getD ""))
               deployment_url := some (pyStrip (form.deployment_url.getD ""))
               status := some (form.status.getD "Active")
               is_public := form.is_public == some "on"
               created_at := now, updated_at := now }]
          next_project_id := db.next_project_id + 1 }, .ok) := by
    unfold create_project
    rw [if_neg htitle]
  have hnone : db.projects.find? (fun p => p.id == db.next_project_id) = none :=
    List.find?_eq_none.mpr fun p hp => by simpa using hfresh p hp
  refine ⟨by rw [hcp], by rw [hcp], ?_⟩
  unfold get_project
  rw [hcp]
  dsimp only
  rw [List.find?_append, hnone]
  simp

/-- Updating the row `find?` locates is again what `find?` locates. -/
theorem find?_map_update (l : List Project) (pid : Nat) (proj proj' : Project)
    (hfind : l.find? (fun p => p.id == pid) = some proj)
    (hid : proj'.id = proj.id) :
    (l.map fun p => if p.id == pid then proj' else p).find? (fun p => p.id == pid)
      = some proj' := by
  induction l with
  | nil => simp at hfind
  | cons a l ih =>
    by_cases ha : (a.id == pid) = true
    · rw [List.find?_cons_of_pos (p := fun q : Project => q.id == pid) _ ha] at hfind
      injection hfind with hraw
      subst hraw
      have hpid : a.id = pid := by simpa using ha
      simp only [List.map_cons, if_pos ha]
      exact List.find?_cons_of_pos (p := fun q : Project => q.id == pid) _ (by simp [hid, hpid])
    · rw [List.find?_cons_of_neg (p := fun q : Project => q.id == pid) _ (by simpa using ha)] at hfind
      simp only [List.map_cons, if_neg ha]
      rw [List.find?_cons_of_neg (p := fun q : Project => q.id == pid) _ (by simpa using ha)]
      exact ih hfind

/-- What a successful owner `edit_project` writes, as a store transformer. -/
theorem edit_ok_spec (db : DB) (uid pid : Nat) (form : ProjectForm) (now : Nat)
    (proj : Project) (d ts fc du : String)
    (hfind : db.projects.find? (fun p => p.id == pid) = some proj)
    (howner : proj.owner_id = uid)
    (hd : form.description.or proj.description = some d)
    (hts : form.tech_stack.or proj.tech_stack = some ts)
    (hfc : form.feature_checklist.or proj.feature_checklist = some fc)
    (hdu : form.deployment_url.or proj.deployment_url = some du) :
    edit_project db uid pid form now =
      ({ db with
          projects := db.projects.map fun p =>
            if p.id == pid then
              { proj with
                title := pyStrip (form.title.getD proj.title)
                description := some (pyStrip d)
                tech_stack := some (pyStrip ts)
                feature_checklist := some (pyStrip fc)
                deployment_url := some (pyStrip du)
                status := form.status.or proj.status
                is_public := form.is_public == some "on"
                updated_at := now }
            else p }, .ok) := by
  unfold edit_project
  rw [hfind]
  dsimp only
  rw [if_neg (not_not_intro howner), hd, hts, hfc, hdu]

/-! ### C6: create/get round-trip and edit timestamps -/

/-- C6 counterexample: `create_project` does not strip `status`
(src/app.py line 170 has no `.strip()`), so the stored row does not equal the
submitted values after trimming: submitting `" Active "` stores `" Active "`,
not `"Active"`. -/
theorem create_get_status_untrimmed_cex :
    (create_project DB.empty 1 cexStatusForm 5).2 = .ok ∧
    Option.map Project.status
      (get_project (create_project DB.empty 1 cexStatusForm 5).1 1) =
      some (some " Active ") ∧
    pyStrip " Active " = "Active" ∧
    ((" Active " : String) == "Active") = false := by
  decide

/-- C6 amended: `Create` then `Get` returns a row whose fields equal the
submitted values after trimming — except `status`, stored verbatim with
default `"Active"`, and `is_public`, stored as the checkbox test — with
`created_at = updated_at = t`.  A subsequent owner `Edit` at a later time `t'`
that supplies none of the text fields answers OK, keeps every text field and
`status` unchanged, sets `updated_at := t'` (strictly later), and recomputes
`is_public` from the edit request's checkbox. -/
theorem create_get_edit_roundtrip (db : DB) (uid : Nat) (cform eform : ProjectForm)
    (t t' : Nat)
    (htitle : pyStrip (cform.title.getD "") ≠ "")
    (hfresh : ∀ p ∈ db.projects, p.id ≠ db.next_project_id)
    (ht : t < t')
    (hnoti : eform.title = none) (hnod : eform.description = none)
    (hnots : eform.tech_stack = none) (hnofc : eform.feature_checklist = none)
    (hnodu : eform.deployment_url = none) (hnost : eform.status = none) :
    (create_project db uid cform t).2 = .ok ∧
    get_project (create_project db uid cform t).1 db.next_project_id =
      some { id := db.next_project_id, owner_id := uid
             title := pyStrip (cform.title.getD "")
             description := some (pyStrip (cform.description.getD ""))
             tech_stack := some (pyStrip (cform.tech_stack.getD ""))
             feature_checklist := some (pyStrip (cform.feature_checklist.getD ""))
             deployment_url := some (pyStrip (cform.deployment_url.getD ""))
             status := some (cform.status.getD "Active")
             is_public := cform.is_public == some "on"
             created_at := t, updated_at := t } ∧
    (edit_project (create_project db uid cform t).1 uid db.next_project_id
      eform t').2 = .ok ∧
    get_project
      (edit_project (create_project db uid cform t).1 uid db.next_project_id
        eform t').1 db.next_project_id =
      some { id := db.next_project_id, owner_id := uid
             title := pyStrip (cform.title.getD "")
             description := some (pyStrip (cform.description.getD ""))
             tech_stack := some (pyStrip (cform.tech_stack.getD ""))
             feature_checklist := some (pyStrip (cform.feature_checklist.getD ""))
             deployment_url := some (pyStrip (cform.deployment_url.getD ""))
             status := some (cform.status.getD "Active")
             is_public := eform.is_public == some "on"
             created_at := t, updated_at := t' } ∧
    t < t' := by
  obtain ⟨hok, hrows, hget⟩ := create_project_spec db uid cform t htitle hfresh
  have hfind1 : (create_project db uid cform t).1.projects.find?
      (fun p => p.id == db.next_project_id) =
      some { id := db.next_project_id, owner_id := uid
             title := pyStrip (cform.title.getD "")
             description := some (pyStrip (cform.description.getD ""))
             tech_stack := some (pyStrip (cform.tech_stack.getD ""))
             feature_checklist := some (pyStrip (cform.feature_checklist.getD ""))
             deployment_url := some (pyStrip (cform.deployment_url.getD ""))
             status := some (cform.status.getD "Active")
             is_public := cform.is_public == some "on"
             created_at := t, updated_at := t } := hget
  have hedit := edit_ok_spec (create_project db uid cform t).1 uid
    db.next_project_id eform t' _
    (pyStrip (cform.description.getD "")) (pyStrip (cform.tech_stack.getD ""))
    (pyStrip (cform.feature_checklist.getD ""))
    (pyStrip (cform.deployment_url.getD ""))
    hfind1 rfl (by rw [hnod]; rfl) (by rw [hnots]; rfl) (by rw [hnofc]; rfl)
    (by rw [hnodu]; rfl)
  refine ⟨hok, hget, by rw [hedit], ?_, ht⟩
  unfold get_project
  rw [hedit]
  dsimp only
  simp only [hnoti, hnost, Option.getD_none, Option.none_or, pyStrip_idem]
  exact find?_map_update _ _ _ _ hfind1 rfl

/-- Witness for C6's amended theorem: a concrete create at time 5 followed by
an owner edit at time 6. -/
theorem create_get_edit_roundtrip_witness :
    pyStrip ((some "Blog").getD "") ≠ "" ∧
    (∀ p ∈ DB.empty.projects, p.id ≠ DB.empty.next_project_id) ∧
    ((create_project DB.empty 1 { title := some "Blog" } 5).2 = .ok ∧
     (edit_project (create_project DB.empty 1 { title := some "Blog" } 5).1 1
        DB.empty.next_project_id { is_public := some "on" } 6).2 = .ok ∧
     get_project
       (edit_project (create_project DB.empty 1 { title := some "Blog" } 5).1 1
          DB.empty.next_project_id { is_public := some "on" } 6).1
       DB.empty.next_project_id =
       some { id := 1, owner_id := 1, title := "Blog"
              description := some "", tech_stack := some ""
              feature_checklist := some "", deployment_url := some ""
              status := some "Active", is_public := true
              created_at := 5, updated_at := 6 }) := by
  have h := create_get_edit_roundtrip DB.empty 1 { title := some "Blog" }
    { is_public := some "on" } 5 6 (by decide) (by decide) (by decide)
    rfl rfl rfl rfl rfl rfl
  exact ⟨by decide, by decide, h.1, h.2.2.1, by rw [h.2.2.2.1]; rfl⟩

/-! ### C7: partial update semantics of edit -/

/-- C7 counterexample: `edit_project` recomputes `is_public` from the
checkbox (src/app.py line 207), so a request that omits `is_public` does not
retain the stored value: Alice's public project becomes private after an edit
that only supplies a new title. -/
theorem edit_omitted_is_public_reset_cex :
    exProjPub.is_public = true ∧
    ({ title := some "Site2" } : ProjectForm).is_public = none ∧
    (edit_project exDbPub 1 1 { title := some "Site2" } 9).2 = .ok ∧
    Option.map Project.is_public
      (get_project (edit_project exDbPub 1 1 { title := some "Site2" } 9).1 1) =
      some false := by
  decide

/-- C7 amended: a successful owner edit overwrites exactly the supplied
fields, trimming the text fields but storing `status` verbatim; every omitted
field keeps its stored value, with one exception — `is_public` is always
recomputed as "the request carries `is_public=on`", so omitting the checkbox
stores `false`.  Rows with other ids are untouched.  (Hypotheses: the stored
row is in the shape this application creates, `Project.Normalized`.) -/
theorem edit_partial_update (db : DB) (uid pid : Nat) (form : ProjectForm)
    (now : Nat) (proj : Project)
    (hfind : db.projects.find? (fun p => p.id == pid) = some proj)
    (howner : proj.owner_id = uid)
    (hnorm : proj.Normalized) :
    (edit_project db uid pid form now).2 = .ok ∧
    (∃ proj',
      get_project (edit_project db uid pid form now).1 pid = some proj' ∧
      proj'.id = proj.id ∧ proj'.owner_id = proj.owner_id ∧
      proj'.created_at = proj.created_at ∧ proj'.updated_at = now ∧
      (form.title = none → proj'.title = proj.title) ∧
      (∀ v, form.title = some v → proj'.title = pyStrip v) ∧
      (form.description = none → proj'.description = proj.description) ∧
      (∀ v, form.description = some v → proj'.description = some (pyStrip v)) ∧
      (form.tech_stack = none → proj'.tech_stack = proj.tech_stack) ∧
      (∀ v, form.tech_stack = some v → proj'.tech_stack = some (pyStrip v)) ∧
      (form.feature_checklist = none →
        proj'.feature_checklist = proj.feature_checklist) ∧
      (∀ v, form.feature_checklist = some v →
        proj'.feature_checklist = some (pyStrip v)) ∧
      (form.deployment_url = none → proj'.deployment_url = proj.deployment_url) ∧
      (∀ v, form.deployment_url = some v →
        proj'.deployment_url = some (pyStrip v)) ∧
      (form.status = none → proj'.status = proj.status) ∧
      (∀ v, form.status = some v → proj'.status = some v) ∧
      proj'.is_public = (form.is_public == some "on")) ∧
    (∀ q ∈ db.projects, q.id ≠ pid →
      q ∈ (edit_project db uid pid form now).1.projects) := by
  obtain ⟨hti, ⟨hdS, hdM⟩, ⟨htsS, htsM⟩, ⟨hfcS, hfcM⟩, ⟨hduS, hduM⟩⟩ := hnorm
  obtain ⟨d0, hd0⟩ := Option.isSome_iff_exists.mp hdS
  obtain ⟨ts0, hts0⟩ := Option.isSome_iff_exists.mp htsS
  obtain ⟨fc0, hfc0⟩ := Option.isSome_iff_exists.mp hfcS
  obtain ⟨du0, hdu0⟩ := Option.isSome_iff_exists.mp hduS
  have hd : form.description.or proj.description =
      some (form.description.getD d0) := by
    cases form.description <;> simp [hd0]
  have hts : form.tech_stack.or proj.tech_stack =
      some (form.tech_stack.getD ts0) := by
    cases form.tech_stack <;> simp [hts0]
  have hfc : form.feature_checklist.or proj.feature_checklist =
      some (form.feature_checklist.getD fc0) := by
    cases form.feature_checklist <;> simp [hfc0]
  have hdu : form.deployment_url.or proj.deployment_url =
      some (form.deployment_url.getD du0) := by
    cases form.deployment_url <;> simp [hdu0]
  have hedit := edit_ok_spec db uid pid form now proj _ _ _ _ hfind howner
    hd hts hfc hdu
  rw [hd0] at hdM
  rw [hts0] at htsM
  rw [hfc0] at hfcM
  rw [hdu0] at hduM
  simp only [Option.map_some', Option.some.injEq] at hdM htsM hfcM hduM
  refine ⟨by rw [hedit], ?_, ?_⟩
  · refine ⟨{ proj with
        title := pyStrip (form.title.getD proj.title)
        description := some (pyStrip (form.description.getD d0))
        tech_stack := some (pyStrip (form.tech_stack.getD ts0))
        feature_checklist := some (pyStrip (form.feature_checklist.getD fc0))
        deployment_url := some (pyStrip (form.deployment_url.getD du0))
        status := form.status.or proj.status
        is_public := form.is_public == some "on"
        updated_at := now }, ?_, rfl, rfl, rfl, rfl, ?_, ?_, ?_, ?_, ?_, ?_,
      ?_, ?_, ?_, ?_, ?_, ?_, rfl⟩
    · unfold get_project
      rw [hedit]
      dsimp only
      exact find?_map_update _ _ _ _ hfind rfl
    · intro h
      simp only [h, Option.getD_none]
      exact hti
    · intro v hv
      simp [hv]
    · intro h
      rw [hd0]
      simp only [h, Option.getD_none]
      rw [hdM]
    · intro v hv
      simp [hv]
    · intro h
      rw [hts0]
      simp only [h, Option.getD_none]
      rw [htsM]
    · intro v hv
      simp [hv]
    · intro h
      rw [hfc0]
      simp only [h, Option.getD_none]
      rw [hfcM]
    · intro v hv
      simp [hv]
    · intro h
      rw [hdu0]
      simp only [h, Option.getD_none]
      rw [hduM]
    · intro v hv
      simp [hv]
    · intro h
      simp [h]
    · intro v hv
      simp [hv]
  · intro q hq hqne
    rw [hedit]
    dsimp only
    exact List.mem_map.mpr ⟨q, hq, if_neg (by simpa using hqne)⟩

/-- Witness for C7's amended theorem: editing Alice's public project with a
request that supplies only a trimmed title and omits the checkbox. -/
theorem edit_partial_update_witness :
    exDbPub.projects.find? (fun p => p.id == 1) = some exProjPub ∧
    exProjPub.owner_id = 1 ∧
    exProjPub.Normalized ∧
    ((edit_project exDbPub 1 1 { title := some " Site2 " } 9).2 = .ok ∧
     (∀ q ∈ exDbPub.projects, q.id ≠ 1 →
       q ∈ (edit_project exDbPub 1 1 { title := some " Site2 " } 9).1.projects)) := by
  have h := edit_partial_update exDbPub 1 1 { title := some " Site2 " } 9
    exProjPub (by decide) (by decide)
    ⟨rfl, ⟨rfl, rfl⟩, ⟨rfl, rfl⟩, ⟨rfl, rfl⟩, ⟨rfl, rfl⟩⟩
  exact ⟨by decide, by decide,
    ⟨rfl, ⟨rfl, rfl⟩, ⟨rfl, rfl⟩, ⟨rfl, rfl⟩, ⟨rfl, rfl⟩⟩, h.1, h.2.2⟩

/-! ### C8: what non-owner responses reveal -/

/-- C8 counterexample: the handlers answer 403 for an existing foreign
project but 404 for a missing id, so a non-owner can tell whether the project
exists — the responses are distinguishable. -/
theorem edit_delete_leak_cex :
    (get_project exDb 1).isSome = true ∧
    get_project exDb 5 = none ∧
    (edit_project exDb 2 1 {} 9).2 = .forbidden ∧
    (edit_project exDb 2 5 {} 9).2 = .notFound ∧
    (delete_project exDb 2 1).2 = .forbidden ∧
    (delete_project exDb 2 5).2 = .notFound ∧
    (RouteResult.forbidden == RouteResult.notFound) = false := by
  decide

/-- C8 amended: the code distinguishes the two cases rather than hiding them:
a missing id yields 404 and an existing project owned by someone else yields
403, so the response does leak existence to authenticated non-owners; in both
cases the store is left unchanged. -/
theorem edit_delete_distinguish (db : DB) (uid pid : Nat) (form : ProjectForm)
    (now : Nat) :
    (get_project db pid = none →
      edit_project db uid pid form now = (db, .notFound) ∧
      delete_project db uid pid = (db, .notFound)) ∧
    (∀ p, get_project db pid = some p → p.owner_id ≠ uid →
      edit_project db uid pid form now = (db, .forbidden) ∧
      delete_project db uid pid = (db, .forbidden)) := by
  constructor
  · intro hnone
    unfold get_project at hnone
    unfold edit_project delete_project
    rw [hnone]
    exact ⟨rfl, rfl⟩
  · intro p hp howner
    unfold get_project at hp
    unfold edit_project delete_project
    rw [hp]
    simp [howner]

/-- Witness for C8's amended theorem: Bob probing a missing id and Alice's
project. -/
theorem edit_delete_distinguish_witness :
    (get_project exDb 7 = none ∧
      edit_project exDb 2 7 {} 9 = (exDb, .notFound) ∧
      delete_project exDb 2 7 = (exDb, .notFound)) ∧
    (get_project exDb 1 = some exProjBlog ∧ exProjBlog.owner_id ≠ 2 ∧
      edit_project exDb 2 1 {} 9 = (exDb, .forbidden) ∧
      delete_project exDb 2 1 = (exDb, .forbidden)) := by
  have h7 := (edit_delete_distinguish exDb 2 7 {} 9).1 (by decide)
  have h1 := (edit_delete_distinguish exDb 2 1 {} 9).2 exProjBlog (by decide)
    (by decide)
  exact ⟨⟨by decide, h7.1, h7.2⟩, ⟨by decide, by decide, h1.1, h1.2⟩⟩

/-! ### C9: the status default -/

/-- C9 counterexample: a submitted `status` outside the enumerated set
`Active / On Hold / Completed` is persisted verbatim, not replaced by the
default `"Active"`. -/
theorem create_status_unknown_kept_cex :
    Option.map Project.status
      (get_project
        (create_project DB.empty 1 { title := some "T", status := some "Bogus" }
          0).1 1) = some (some "Bogus") ∧
    (["Active", "On Hold", "Completed"].contains "Bogus") = false ∧
    (("Bogus" : String) == "Active") = false := by
  decide

/-- C9 amended: an omitted `status` defaults to `"Active"`; a provided
`status` — whatever its value, with no validation against the enumerated
set — is persisted verbatim. -/
theorem create_status_default (db : DB) (uid : Nat) (form : ProjectForm)
    (now : Nat)
    (htitle : pyStrip (form.title.getD "") ≠ "")
    (hfresh : ∀ p ∈ db.projects, p.id ≠ db.next_project_id) :
    ∃ proj,
      get_project (create_project db uid form now).1 db.next_project_id =
        some proj ∧
      (form.status = none → proj.status = some "Active") ∧
      (∀ v, form.status = some v → proj.status = some v) := by
  obtain ⟨hok, hrows, hget⟩ := create_project_spec db uid form now htitle hfresh
  refine ⟨_, hget, ?_, ?_⟩
  · intro h
    simp [h]
  · intro v hv
    simp [hv]

/-- Witness for C9's amended theorem: creating with `status` omitted stores
`"Active"`. -/
theorem create_status_default_witness :
    pyStrip ((some "T").getD "") ≠ "" ∧
    (∀ p ∈ DB.empty.projects, p.id ≠ DB.empty.next_project_id) ∧
    (∃ proj,
      get_project (create_project DB.empty 1 { title := some "T" } 0).1
        DB.empty.next_project_id = some proj ∧
      (({ title := some "T" } : ProjectForm).status = none →
        proj.status = some "Active") ∧
      (∀ v, ({ title := some "T" } : ProjectForm).status = some v →
        proj.status = some v)) :=
  ⟨by decide, by decide,
   create_status_default DB.empty 1 { title := some "T" } 0 (by decide)
     (by decide)⟩

/-! ### C10: created rows have non-null text columns, so edit never crashes -/

/-- C10: every row persisted by `create_project` carries `some`-strings
(possibly empty) in all four nullable text columns, and therefore an owner
edit of such a row — whatever the form supplies or omits — never hits the
`None.strip()` `AttributeError` path: it always answers OK, never a 500. -/
theorem create_nonnull_edit_total (db : DB) (uid : Nat) (form : ProjectForm)
    (now : Nat)
    (htitle : pyStrip (form.title.getD "") ≠ "")
    (hfresh : ∀ p ∈ db.projects, p.id ≠ db.next_project_id) :
    ∃ proj,
      get_project (create_project db uid form now).1 db.next_project_id =
        some proj ∧
      proj.description.isSome = true ∧ proj.tech_stack.isSome = true ∧
      proj.feature_checklist.isSome = true ∧ proj.deployment_url.isSome = true ∧
      ∀ (eform : ProjectForm) (later : Nat),
        (edit_project (create_project db uid form now).1 uid
          db.next_project_id eform later).2 = .ok ∧
        (edit_project (create_project db uid form now).1 uid
          db.next_project_id eform later).2 ≠ .serverError := by
  obtain ⟨hok, hrows, hget⟩ := create_project_spec db uid form now htitle hfresh
  refine ⟨_, hget, rfl, rfl, rfl, rfl, ?_⟩
  intro eform later
  have hd : ∃ d, eform.description.or
      (some (pyStrip (form.description.getD ""))) = some d := by
    cases eform.description <;> exact ⟨_, rfl⟩
  have hts : ∃ d, eform.tech_stack.or
      (some (pyStrip (form.tech_stack.getD ""))) = some d := by
    cases eform.tech_stack <;> exact ⟨_, rfl⟩
  have hfc : ∃ d, eform.feature_checklist.or
      (some (pyStrip (form.feature_checklist.getD ""))) = some d := by
    cases eform.feature_checklist <;> exact ⟨_, rfl⟩
  have hdu : ∃ d, eform.deployment_url.or
      (some (pyStrip (form.deployment_url.getD ""))) = some d := by
    cases eform.deployment_url <;> exact ⟨_, rfl⟩
  obtain ⟨d, hd⟩ := hd
  obtain ⟨ts, hts⟩ := hts
  obtain ⟨fc, hfc⟩ := hfc
  obtain ⟨du, hdu⟩ := hdu
  have hedit := edit_ok_spec (create_project db uid form now).1 uid
    db.next_project_id eform later _ d ts fc du hget rfl hd hts hfc hdu
  rw [hedit]
  exact ⟨rfl, by simp⟩

/-- Witness for C10: a created row with every optional field omitted still
stores empty strings, and an edit that omits everything succeeds. -/
theorem create_nonnull_edit_total_witness :
    pyStrip ((some "App").getD "") ≠ "" ∧
    (∀ p ∈ DB.empty.projects, p.id ≠ DB.empty.next_project_id) ∧
    (∃ proj,
      get_project (create_project DB.empty 1 { title := some "App" } 2).1
        DB.empty.next_project_id = some proj ∧
      proj.description.isSome = true ∧ proj.tech_stack.isSome = true ∧
      proj.feature_checklist.isSome = true ∧ proj.deployment_url.isSome = true ∧
      ∀ (eform : ProjectForm) (later : Nat),
        (edit_project (create_project DB.empty 1 { title := some "App" } 2).1 1
          DB.empty.next_project_id eform later).2 = .ok ∧
        (edit_project (create_project DB.empty 1 { title := some "App" } 2).1 1
          DB.empty.next_project_id eform later).2 ≠ .serverError) :=
  ⟨by decide, by decide,
   create_nonnull_edit_total DB.empty 1 { title := some "App" } 2 (by decide)
     (by decide)⟩

end App
